import Mathlib

/-!
Shallow embedding of the request-execution core of the go_shopify client
(client.go and the error-normalization file), together with proofs about
the error normalizer, the retry loop and the rate-limit tracking.

Machine integers are modelled as `Int`/`Nat` (no overflow is relevant to
the behaviour in question).  `float64` values only ever arise here from
parsing decimal header strings, so they are modelled exactly as decimal
numbers `mantissa / 10 ^ scale`.  Response bodies are modelled by their
raw text plus the outcome of the external JSON parser (`encoding/json`
is a library external to this repository, so its parse result is part
of the input; the repository code is embedded faithfully on top of it).
-/

namespace GoShopify

/-- Source constant `defaultApiVersion = "stable"`. -/
def defaultApiVersion : String := "stable"

/-- A decimal number `mantissa / 10 ^ scale`, the exact value of a
parsed decimal header string (float64 holds these exactly in the range
that matters here). -/
structure Decimal where
  mantissa : Int
  scale : Nat
deriving DecidableEq, Repr

/-- Source struct `RateLimitInfo`. -/
structure RateLimitInfo where
  RequestCount : Int
  BucketSize : Int
  RetryAfterSeconds : Decimal
deriving DecidableEq, Repr

mutual
/-- A JSON value as produced by `encoding/json` unmarshalling into an
untyped interface: strings, numbers (float64, modelled as `Rat`),
booleans, null, arrays and string-keyed objects.  Objects carry their
entries in the order Go's map iteration would visit them (that order is
nondeterministic in Go; the embedding makes it an explicit part of the
input). -/
inductive JVal where
  | jstr (s : String)
  | jnum (q : Rat)
  | jbool (b : Bool)
  | jnull
  | jarr (elems : JArr)
  | jobj (entries : JObj)
/-- A JSON array (a list of `JVal`, kept as its own inductive so all
recursion over values is structural). -/
inductive JArr where
  | nil
  | cons (hd : JVal) (tl : JArr)
/-- A JSON object: key/value entries in iteration order. -/
inductive JObj where
  | nil
  | cons (key : String) (val : JVal) (tl : JObj)
end

mutual
/-- Model of `fmt.Sprint` applied to a value unmarshalled by
`encoding/json`: strings print bare, booleans as `true`/`false`, nil as
`<nil>`, integral float64 values without a decimal point; the composite
and non-integral cases approximate Go's formatting (they are never hit
by the properties below, which only stringify strings). -/
def goSprint : JVal → String
  | .jstr s => s
  | .jnum q => if q.den = 1 then toString q.num else toString q
  | .jbool b => if b then "true" else "false"
  | .jnull => "<nil>"
  | .jarr a => "[" ++ String.intercalate " " (goSprintArr a) ++ "]"
  | .jobj o => "map[" ++ String.intercalate " " (goSprintObj o) ++ "]"
/-- The stringified elements of a JSON array, in order. -/
def goSprintArr : JArr → List String
  | .nil => []
  | .cons e rest => goSprint e :: goSprintArr rest
/-- The stringified `key:value` entries of a JSON object, in order. -/
def goSprintObj : JObj → List String
  | .nil => []
  | .cons k v rest => (k ++ ":" ++ goSprint v) :: goSprintObj rest
end

/-- Source struct `ResponseError`. -/
structure ResponseError where
  Status : Int
  Message : String
  Errors : List String
deriving DecidableEq, Repr

/-- Byte-wise lexicographic comparison of character lists.  Go's
`sort.Strings` compares UTF-8 bytes; UTF-8 byte order coincides with
code-point order, so comparing `Char.toNat` is the same order. -/
def charListLe : List Char → List Char → Bool
  | [], _ => true
  | _ :: _, [] => false
  | a :: as, b :: bs =>
      if a.toNat < b.toNat then true
      else if b.toNat < a.toNat then false
      else charListLe as bs

/-- Lexicographic (byte-order) `≤` on strings, as Go compares them. -/
def stringLe (a b : String) : Bool :=
  charListLe a.data b.data

/-- Model of Go's `sort.Strings`: sort lexicographically. -/
def sortStrings (l : List String) : List String :=
  l.insertionSort (fun a b => stringLe a b = true)

/-- Source method `ResponseError.Error()`: the string form of a
`ResponseError`. -/
def ResponseError.errString (e : ResponseError) : String :=
  if e.Message ≠ "" then e.Message
  else
    let s := String.intercalate ", " (sortStrings e.Errors)
    if s ≠ "" then s else "Unknown Error"

/-- Source struct `ResponseDecodingError` (raw body, parser message,
status). -/
structure ResponseDecodingError where
  Body : String
  Message : String
  Status : Int
deriving DecidableEq, Repr

/-- Source struct `RateLimitError`: embeds `ResponseError` and adds the
truncated retry-after second count. -/
structure RateLimitError where
  responseError : ResponseError
  RetryAfter : Int
deriving DecidableEq, Repr

/-- The kinds of error value `CheckResponseError` can return: the error
from reading the body, a `ResponseDecodingError`, a plain
`ResponseError`, or a `RateLimitError`. -/
inductive GoError where
  | readErr (msg : String)
  | decodingError (e : ResponseDecodingError)
  | responseError (e : ResponseError)
  | rateLimitError (e : RateLimitError)
deriving DecidableEq, Repr

/-- `GetMessage` as observed through the interface: promoted from the
embedded `ResponseError` for `RateLimitError`, the `Message` field for
the others. -/
def GoError.getMessage : GoError → String
  | .readErr m => m
  | .decodingError e => e.Message
  | .responseError e => e.Message
  | .rateLimitError e => e.responseError.Message

/-- `GetErrors` as observed through the interface (empty for error
kinds without a sub-error list). -/
def GoError.getErrors : GoError → List String
  | .responseError e => e.Errors
  | .rateLimitError e => e.responseError.Errors
  | _ => []

/-- Whether the dynamic type of the error is `RateLimitError` (the type
assertion used by the retry loop). -/
def GoError.isRateLimit : GoError → Bool
  | .rateLimitError _ => true
  | _ => false

/-- The outcome of running a piece of Go code that can panic: either a
runtime panic unwinds (`crashed`, carrying the runtime error message)
or the code produces a value.  `CheckResponseError` calls
`reflect.TypeOf(v).Kind()` on each map value, which panics when `v` is
a nil interface (a JSON null), so the embedding must carry this
outcome. -/
inductive GoResult (α : Type) where
  | crashed (msg : String)
  | value (v : α)
deriving DecidableEq, Repr

/-- The message of the Go runtime panic raised by calling a method on a
nil interface value. -/
def goNilPanicMsg : String :=
  "runtime error: invalid memory address or nil pointer dereference"

/-- The response headers the core reads, as returned by
`http.Header.Get` (the empty string stands for an absent header, which
is exactly what `Get` returns then). -/
structure Headers where
  retryAfter : String
  apiCallLimit : String
  apiVersion : String
deriving DecidableEq, Repr

/-- Outcome of `json.Unmarshal` of a non-empty body into the anonymous
struct with fields `error` (string, zero value on absence) and `errors`
(untyped; `none` covers both an absent key and JSON null, which Go
leaves as a nil interface). -/
inductive ParseResult where
  | malformed (errMsg : String)
  | parsed (errorField : String) (errorsField : Option JVal)

/-- Outcome of `ioutil.ReadAll(r.Body)`: a read error, or the raw bytes
together with the (externally supplied) JSON parse outcome for them. -/
inductive BodyRead where
  | err (msg : String)
  | ok (raw : String) (parse : ParseResult)

/-- The parts of `http.Response` the core consumes.  `decodeResult`
models `json.NewDecoder(resp.Body).Decode(&v)` on the success path:
`none` for success, `some msg` for a decode failure. -/
structure Response where
  statusCode : Int
  headers : Headers
  body : BodyRead
  decodeResult : Option String

/-- Parse a run of decimal digits (empty input is a failure). -/
def digitsToNat? (cs : List Char) : Option Nat :=
  if cs = [] then none
  else cs.foldl (fun acc c =>
    match acc with
    | none => none
    | some n => if c.isDigit then some (n * 10 + (c.toNat - 48)) else none) (some 0)

/-- Model of `strconv.Atoi` with its error ignored (as at the call
sites): optional sign followed by digits, anything else gives 0. -/
def goAtoi (s : String) : Int :=
  match s.toList with
  | '-' :: rest => -(((digitsToNat? rest).getD 0 : Nat) : Int)
  | '+' :: rest => (((digitsToNat? rest).getD 0 : Nat) : Int)
  | cs => (((digitsToNat? cs).getD 0 : Nat) : Int)

/-- Digits to a natural number, for a digit list already validated. -/
def natOfDigits (cs : List Char) : Nat :=
  cs.foldl (fun a c => a * 10 + (c.toNat - 48)) 0

/-- Split a character list at every occurrence of `sep`; splitting the
empty list yields one empty group, exactly like Go's `strings.Split`
(and Lean's `String.splitOn`) on an empty string. -/
def splitOnChar (sep : Char) : List Char → List (List Char)
  | [] => [[]]
  | c :: rest =>
      if c = sep then [] :: splitOnChar sep rest
      else
        match splitOnChar sep rest with
        | [] => [[c]]
        | g :: gs => (c :: g) :: gs

/-- Model of Go's `strings.Split` for a one-character separator, which
is the only way the client uses it. -/
def goSplit (s : String) (sep : Char) : List String :=
  (splitOnChar sep s.toList).map (fun g => String.mk g)

/-- Model of `strconv.ParseFloat` on plain decimal inputs (optional
sign, digits, optional fractional part); exotic forms Go would accept
(exponents, inf, hex floats) are treated as parse failures, which no
property below exercises. -/
def parseFloat? (s : String) : Option Decimal :=
  let signed : Int × List Char :=
    match s.toList with
    | '-' :: rest => (-1, rest)
    | '+' :: rest => (1, rest)
    | cs => (1, cs)
  match splitOnChar '.' signed.2 with
  | [a] =>
      if a ≠ [] ∧ a.all Char.isDigit then
        some ⟨signed.1 * (natOfDigits a : Int), 0⟩
      else none
  | [a, b] =>
      if a ≠ [] ∧ a.all Char.isDigit ∧ b.all Char.isDigit then
        some ⟨signed.1 * ((natOfDigits a : Int) * ((10 : Nat) ^ b.length : Nat)
                + (natOfDigits b : Int)),
              b.length⟩
      else none
  | _ => none

/-- `strconv.ParseFloat` with the error ignored (as at the call sites):
a failed parse leaves the zero value. -/
def goParseFloat (s : String) : Decimal :=
  (parseFloat? s).getD ⟨0, 0⟩

/-- Go's `int(f)` conversion from float64: truncation toward zero
(`Int.tdiv` truncates toward zero). -/
def decTrunc (d : Decimal) : Int :=
  d.mantissa.tdiv (((10 : Nat) ^ d.scale : Nat) : Int)

/-- Model of `http.StatusText` for the codes this client mentions. -/
def statusText (code : Int) : String :=
  if code = 400 then "Bad Request"
  else if code = 404 then "Not Found"
  else if code = 406 then "Not Acceptable"
  else if code = 429 then "Too Many Requests"
  else if code = 500 then "Internal Server Error"
  else if code = 503 then "Service Unavailable"
  else ""

/-- Source function `wrapSpecificError`: status 429 wraps the error as
a `RateLimitError` with the truncated parsed `Retry-After` header;
status 406 overrides the message with the standard status text. -/
def wrapSpecificError (r : Response) (err : ResponseError) : GoError :=
  if err.Status = 429 then
    .rateLimitError ⟨err, decTrunc (goParseFloat r.headers.retryAfter)⟩
  else if err.Status = 406 then
    .responseError { err with Message := statusText err.Status }
  else
    .responseError err

/-- One array element of a map-shaped `errors` object: format
`"<key>: <element>"`, use it as the message when none is set yet, and
append it to the sub-error list (the loop body of the `reflect.Slice`
case). -/
def addArrElem (k : String) (acc : ResponseError) (elem : JVal) : ResponseError :=
  let t := k ++ ": " ++ goSprint elem
  { acc with
      Message := if acc.Message = "" then t else acc.Message
      Errors := acc.Errors ++ [t] }

/-- The `range` loop over the elements of an array-valued map entry. -/
def addArrElems (k : String) (acc : ResponseError) : JArr → ResponseError
  | .nil => acc
  | .cons e rest => addArrElems k (addArrElem k acc e) rest

/-- One key/value entry of a map-shaped `errors` object.  The source
first evaluates `reflect.TypeOf(v).Kind()`: when `v` is a nil interface
(a JSON null value) `reflect.TypeOf` returns nil and the `Kind()` call
panics, so the entry crashes the whole call.  Otherwise array values
contribute one sub-error per element, string values one sub-error, and
values of any other kind have no case in the kind switch and fall
through. -/
def addMapEntry (acc : ResponseError) (k : String) (v : JVal) : GoResult ResponseError :=
  match v with
  | .jnull => .crashed goNilPanicMsg
  | .jarr a => .value (addArrElems k acc a)
  | .jstr s =>
      let t := k ++ ": " ++ s
      .value { acc with
          Message := if acc.Message = "" then t else acc.Message
          Errors := acc.Errors ++ [t] }
  | _ => .value acc

/-- The `range` loop over the entries of a map-shaped `errors` object;
a panic at any entry aborts the loop (and the whole call). -/
def addMapEntries (acc : ResponseError) : JObj → GoResult ResponseError
  | .nil => .value acc
  | .cons k v rest =>
      match addMapEntry acc k v with
      | .crashed m => .crashed m
      | .value acc2 => addMapEntries acc2 rest

/-- The `ResponseError` built from a parsed error body: start from the
`error` field as message, then shape-switch on the `errors` field
(string, array, or object), exactly as the kind switch in
`CheckResponseError` does.  Only the object case can panic. -/
def buildFromShopifyError (status : Int) (errorField : String)
    (errorsField : Option JVal) : GoResult ResponseError :=
  let re : ResponseError := ⟨status, errorField, []⟩
  match errorsField with
  | none => .value re
  | some (.jstr s) => .value { re with Message := s }
  | some (.jarr a) =>
      .value { re with
          Errors := goSprintArr a, Message := String.intercalate ", " (goSprintArr a) }
  | some (.jobj entries) => addMapEntries re entries
  | some _ => .value re

/-- Source function `CheckResponseError`: nil for 2xx statuses; the
read error if the body cannot be read; a `ResponseDecodingError` for a
non-empty body that is not valid JSON; otherwise the status-specific
wrapping of the `ResponseError` built from the (possibly empty) body.
The call panics (`crashed`) exactly when building from a map-shaped
`errors` field hits a null value. -/
def CheckResponseError (r : Response) : GoResult (Option GoError) :=
  if 200 ≤ r.statusCode ∧ r.statusCode < 300 then .value none
  else
    match r.body with
    | .err msg => .value (some (.readErr msg))
    | .ok raw p =>
        if raw.length > 0 then
          match p with
          | .malformed m => .value (some (.decodingError ⟨raw, m, r.statusCode⟩))
          | .parsed ef eo =>
              match buildFromShopifyError r.statusCode ef eo with
              | .crashed m => .crashed m
              | .value re => .value (some (wrapSpecificError r re))
        else
          match buildFromShopifyError r.statusCode "" none with
          | .crashed m => .crashed m
          | .value re => .value (some (wrapSpecificError r re))

/-- Mutable client state touched by `doGetHeaders`: the (possibly
pinned) API version, the configured retry budget, the attempt counter
and the rate-limit snapshot. -/
structure Client where
  apiVersion : String
  retries : Int
  attempts : Nat
  rateLimits : RateLimitInfo

/-- One call of `c.Client.Do(req)`: either a transport-level error or a
completed response. -/
inductive DoOutcome where
  | transport (msg : String)
  | ok (resp : Response)

/-- How the retry loop in `doGetHeaders` exits.  `crashed` records a
runtime panic unwinding out of `CheckResponseError`; `exhausted` is a
model artefact: the supplied outcome sequence ran out before the loop
finished (the real transport always produces an outcome). -/
inductive LoopExit where
  | transport (msg : String)
  | apiErr (e : GoError)
  | success (resp : Response)
  | crashed (msg : String)
  | exhausted

/-- The `for` loop of `doGetHeaders`, consuming the transport outcomes
in order.  Returns the exit, the final attempt counter, and the list of
backoff sleeps performed (in seconds, the `RetryAfter` of each
rate-limit retry). -/
def doLoop (retries : Int) (attempts : Nat) (sleeps : List Int) :
    List DoOutcome → LoopExit × Nat × List Int
  | [] => (.exhausted, attempts, sleeps)
  | o :: rest =>
      let attempts := attempts + 1
      match o with
      | .transport msg => (.transport msg, attempts, sleeps)
      | .ok resp =>
          match CheckResponseError resp with
          | .crashed m => (.crashed m, attempts, sleeps)
          | .value none => (.success resp, attempts, sleeps)
          | .value (some respErr) =>
              if retries ≤ 1 then (.apiErr respErr, attempts, sleeps)
              else
                match respErr with
                | .rateLimitError e =>
                    doLoop (retries - 1) attempts (sleeps ++ [e.RetryAfter]) rest
                | _ =>
                    if resp.statusCode = 503 then doLoop (retries - 1) attempts sleeps rest
                    else (.apiErr respErr, attempts, sleeps)

/-- What a `doGetHeaders` call ends in: the raw transport error, the
normalizer's error, the JSON decode error for the success body, the
response headers, or a runtime panic unwinding out of the call;
`exhausted` is the model artefact from `doLoop`. -/
inductive DoGetResult where
  | transportErr (msg : String)
  | apiErr (e : GoError)
  | decodeErr (msg : String)
  | success (h : Headers)
  | crashed (msg : String)
  | exhausted

/-- Result and final client state of one `doGetHeaders` call, plus the
sleeps performed. -/
structure DoGetOutput where
  result : DoGetResult
  client : Client
  sleeps : List Int

/-- The rate-limit header processing at the end of `doGetHeaders`:
split `X-Shopify-Shop-Api-Call-Limit` on "/", and when that yields
exactly two fields store the two `Atoi` results; then unconditionally
store the parsed `Retry-After` value. -/
def updateRateLimits (c : Client) (h : Headers) : Client :=
  let c :=
    match goSplit h.apiCallLimit '/' with
    | [u, l] =>
        { c with rateLimits :=
            { c.rateLimits with RequestCount := goAtoi u, BucketSize := goAtoi l } }
    | _ => c
  { c with rateLimits := { c.rateLimits with RetryAfterSeconds := goParseFloat h.retryAfter } }

/-- The code of `doGetHeaders` after the retry loop, keyed on how the
loop exited (with the attempt counter and sleep trace it produced): an
error exit returns that error; a panic unwinds out of the call with the
attempt counter already incremented and the rest of the client state
untouched; a success pins the API version if still at the sentinel,
decodes the body into the caller's target when one is given
(`hasTarget` models `v != nil`), and updates the rate-limit state. -/
def doFinish (c : Client) (hasTarget : Bool) : LoopExit × Nat × List Int → DoGetOutput
  | (.transport msg, a, s) => ⟨.transportErr msg, { c with attempts := a }, s⟩
  | (.apiErr e, a, s) => ⟨.apiErr e, { c with attempts := a }, s⟩
  | (.crashed m, a, s) => ⟨.crashed m, { c with attempts := a }, s⟩
  | (.exhausted, a, s) => ⟨.exhausted, { c with attempts := a }, s⟩
  | (.success resp, a, s) =>
      let c2 :=
        if c.apiVersion = defaultApiVersion ∧ resp.headers.apiVersion ≠ "" then
          { c with attempts := a, apiVersion := resp.headers.apiVersion }
        else { c with attempts := a }
      match (if hasTarget then resp.decodeResult else none) with
      | some msg => ⟨.decodeErr msg, c2, s⟩
      | none => ⟨.success resp.headers, updateRateLimits c2 resp.headers, s⟩

/-- Source method `doGetHeaders`: run the retry loop over the supplied
transport outcomes, then complete as `doFinish` describes. -/
def doGetHeaders (c : Client) (hasTarget : Bool) (outcomes : List DoOutcome) : DoGetOutput :=
  doFinish c hasTarget (doLoop c.retries 0 [] outcomes)

/-- The sub-error strings an array-valued map entry contributes, in
element order: one `"<key>: <element>"` per element.  This is the
flattening the specification describes; the lemmas below prove the
source's accumulation loops realise it. -/
def flattenArr (k : String) : JArr → List String
  | .nil => []
  | .cons e rest => (k ++ ": " ++ goSprint e) :: flattenArr k rest

/-- The sub-error strings one entry of a map-shaped `errors` object
contributes: the per-element strings for an array value, a single
`"<key>: <value>"` for a string value, nothing for other kinds. -/
def flattenEntry (k : String) (v : JVal) : List String :=
  match v with
  | .jarr a => flattenArr k a
  | .jstr s => [k ++ ": " ++ s]
  | _ => []

/-- All sub-error strings of a map-shaped `errors` object, in entry
order. -/
def flattenObj : JObj → List String
  | .nil => []
  | .cons k v rest => flattenEntry k v ++ flattenObj rest

lemma ne_empty_of_length_pos (s : String) (h : s ≠ "") : 0 < s.length := by
  obtain ⟨l⟩ := s
  cases l with
  | nil => exact absurd rfl h
  | cons c cs => simp [String.length]

lemma colon_append_ne (k s : String) : k ++ ": " ++ s ≠ "" := by
  intro h
  have h2 := congrArg String.length h
  simp [String.length_append] at h2
  exact absurd h2.1.2 (by decide)

lemma charListLe_total : ∀ a b, charListLe a b = true ∨ charListLe b a = true := by
  intro a
  induction a with
  | nil => intro b; left; rfl
  | cons x xs ih =>
      intro b
      cases b with
      | nil => right; rfl
      | cons y ys =>
          by_cases h1 : x.toNat < y.toNat
          · left
            simp [charListLe, h1]
          · by_cases h2 : y.toNat < x.toNat
            · right
              simp [charListLe, h2]
            · rcases ih ys with h | h
              · left
                simp [charListLe, h1, h2, h]
              · right
                simp [charListLe, h1, h2, h]

lemma charListLe_trans : ∀ a b c, charListLe a b = true → charListLe b c = true →
    charListLe a c = true := by
  intro a
  induction a with
  | nil => intro b c _ _; rfl
  | cons x xs ih =>
      intro b c hab hbc
      cases b with
      | nil => simp [charListLe] at hab
      | cons y ys =>
          cases c with
          | nil => simp [charListLe] at hbc
          | cons z zs =>
              simp only [charListLe] at hab hbc ⊢
              split_ifs at hab hbc ⊢ <;>
                first
                  | rfl
                  | (exact ih ys zs hab hbc)
                  | omega

instance : IsTotal String (fun a b => stringLe a b = true) :=
  ⟨fun a b => charListLe_total a.data b.data⟩

instance : IsTrans String (fun a b => stringLe a b = true) :=
  ⟨fun a b c hab hbc => charListLe_trans a.data b.data c.data hab hbc⟩

lemma flattenArr_mem_ne (k : String) (a : JArr) : ∀ x ∈ flattenArr k a, x ≠ "" := by
  intro x hx
  cases a with
  | nil => simp [flattenArr] at hx
  | cons e rest =>
      simp only [flattenArr, List.mem_cons] at hx
      rcases hx with h | h
      · subst h
        exact colon_append_ne k (goSprint e)
      · exact flattenArr_mem_ne k rest x h

lemma flattenEntry_mem_ne (k : String) (v : JVal) : ∀ x ∈ flattenEntry k v, x ≠ "" := by
  intro x hx
  cases v with
  | jarr a => exact flattenArr_mem_ne k a x hx
  | jstr s =>
      simp only [flattenEntry, List.mem_singleton] at hx
      subst hx
      exact colon_append_ne k s
  | jnum q => simp [flattenEntry] at hx
  | jbool b => simp [flattenEntry] at hx
  | jnull => simp [flattenEntry] at hx
  | jobj o => simp [flattenEntry] at hx

lemma addArrElems_spec (k : String) (a : JArr) (acc : ResponseError) :
    (addArrElems k acc a).Status = acc.Status ∧
    (addArrElems k acc a).Errors = acc.Errors ++ flattenArr k a ∧
    (addArrElems k acc a).Message =
      (if acc.Message = "" then (flattenArr k a).headD "" else acc.Message) := by
  cases a with
  | nil =>
      refine ⟨rfl, by simp [addArrElems, flattenArr], ?_⟩
      by_cases h : acc.Message = "" <;> simp [addArrElems, flattenArr, h]
  | cons e rest =>
      have hstep : addArrElem k acc e =
          { acc with
              Message := if acc.Message = "" then k ++ ": " ++ goSprint e else acc.Message
              Errors := acc.Errors ++ [k ++ ": " ++ goSprint e] } := rfl
      simp only [addArrElems, hstep]
      obtain ⟨ihs, ihe, ihm⟩ := addArrElems_spec k rest { acc with
          Message := if acc.Message = "" then k ++ ": " ++ goSprint e else acc.Message
          Errors := acc.Errors ++ [k ++ ": " ++ goSprint e] }
      refine ⟨ihs, ?_, ?_⟩
      · rw [ihe]
        simp [flattenArr]
      · rw [ihm]
        by_cases h : acc.Message = ""
        · simp [h, flattenArr, colon_append_ne k (goSprint e)]
        · simp [h]

/-- Whether a JSON value is null (the nil-interface case the source's
kind switch never reaches because `Kind()` panics first). -/
def isJNull : JVal → Bool
  | .jnull => true
  | _ => false

/-- Whether some entry of a JSON object has a null value: exactly the
objects on which the source's map loop panics. -/
def objHasNull : JObj → Bool
  | .nil => false
  | .cons _ v rest => isJNull v || objHasNull rest

/-- Whether an `errors` field makes `CheckResponseError` panic: it must
be an object with a null value (strings, arrays and the other shapes
never panic). -/
def errorsHasNull : Option JVal → Bool
  | some (.jobj entries) => objHasNull entries
  | _ => false

/-- The sub-error list of the error value a `CheckResponseError` call
returned, when it returned one (observation helper for statements). -/
def resultErrors : GoResult (Option GoError) → Option (List String)
  | .value (some g) => some g.getErrors
  | _ => none

/-- The message of the error value a `CheckResponseError` call
returned, when it returned one (observation helper for statements). -/
def resultMessage : GoResult (Option GoError) → Option String
  | .value (some g) => some g.getMessage
  | _ => none

lemma addMapEntry_value (acc : ResponseError) (k : String) (v : JVal)
    (acc2 : ResponseError) (h : addMapEntry acc k v = .value acc2) :
    acc2.Status = acc.Status ∧
    acc2.Errors = acc.Errors ++ flattenEntry k v ∧
    acc2.Message =
      (if acc.Message = "" then (flattenEntry k v).headD "" else acc.Message) := by
  cases v with
  | jarr a =>
      simp only [addMapEntry, GoResult.value.injEq] at h
      subst h
      simpa [flattenEntry] using addArrElems_spec k a acc
  | jstr s =>
      simp only [addMapEntry, GoResult.value.injEq] at h
      subst h
      refine ⟨rfl, by simp [flattenEntry], ?_⟩
      by_cases hm : acc.Message = "" <;> simp [flattenEntry, hm]
  | jnum q =>
      simp only [addMapEntry, GoResult.value.injEq] at h
      subst h
      refine ⟨rfl, by simp [flattenEntry], ?_⟩
      by_cases hm : acc.Message = "" <;> simp [flattenEntry, hm]
  | jbool b =>
      simp only [addMapEntry, GoResult.value.injEq] at h
      subst h
      refine ⟨rfl, by simp [flattenEntry], ?_⟩
      by_cases hm : acc.Message = "" <;> simp [flattenEntry, hm]
  | jnull => simp [addMapEntry] at h
  | jobj o =>
      simp only [addMapEntry, GoResult.value.injEq] at h
      subst h
      refine ⟨rfl, by simp [flattenEntry], ?_⟩
      by_cases hm : acc.Message = "" <;> simp [flattenEntry, hm]

lemma addMapEntry_exists (acc : ResponseError) (k : String) (v : JVal)
    (hv : isJNull v = false) :
    ∃ acc2, addMapEntry acc k v = .value acc2 := by
  cases v with
  | jnull => simp [isJNull] at hv
  | jarr a => exact ⟨_, rfl⟩
  | jstr s => exact ⟨_, rfl⟩
  | jnum q => exact ⟨_, rfl⟩
  | jbool b => exact ⟨_, rfl⟩
  | jobj o => exact ⟨_, rfl⟩

lemma addMapEntries_value (entries : JObj) : ∀ acc acc2 : ResponseError,
    addMapEntries acc entries = .value acc2 →
    acc2.Status = acc.Status ∧
    acc2.Errors = acc.Errors ++ flattenObj entries ∧
    acc2.Message =
      (if acc.Message = "" then (flattenObj entries).headD "" else acc.Message) := by
  cases entries with
  | nil =>
      intro acc acc2 h
      simp only [addMapEntries, GoResult.value.injEq] at h
      subst h
      refine ⟨rfl, by simp [flattenObj], ?_⟩
      by_cases hm : acc.Message = "" <;> simp [flattenObj, hm]
  | cons k v rest =>
      intro acc acc2 h
      simp only [addMapEntries] at h
      cases hstep : addMapEntry acc k v with
      | crashed m => rw [hstep] at h; simp at h
      | value acc1 =>
          rw [hstep] at h
          simp only at h
          obtain ⟨hs, he, hm⟩ := addMapEntry_value acc k v acc1 hstep
          obtain ⟨ihs, ihe, ihm⟩ := addMapEntries_value rest acc1 acc2 h
          refine ⟨ihs.trans hs, ?_, ?_⟩
          · rw [ihe, he]
            simp [flattenObj]
          · rw [ihm, hm]
            by_cases hmm : acc.Message = ""
            · simp only [hmm, if_pos rfl]
              cases hfe : flattenEntry k v with
              | nil => simp [flattenObj, hfe]
              | cons x xs =>
                  have hx : x ≠ "" :=
                    flattenEntry_mem_ne k v x (by rw [hfe]; exact List.mem_cons_self x xs)
                  simp [flattenObj, hfe, hx]
            · simp [hmm]

lemma addMapEntries_exists (entries : JObj) : ∀ acc : ResponseError,
    objHasNull entries = false →
    ∃ acc2, addMapEntries acc entries = .value acc2 := by
  cases entries with
  | nil =>
      intro acc _
      exact ⟨acc, rfl⟩
  | cons k v rest =>
      intro acc hnull
      simp only [objHasNull, Bool.or_eq_false_iff] at hnull
      obtain ⟨acc1, h1⟩ := addMapEntry_exists acc k v hnull.1
      obtain ⟨acc2, h2⟩ := addMapEntries_exists rest acc1 hnull.2
      refine ⟨acc2, ?_⟩
      simp only [addMapEntries, h1]
      exact h2

lemma buildFromShopifyError_value_Status (st : Int) (ef : String) (eo : Option JVal)
    (re : ResponseError) (h : buildFromShopifyError st ef eo = .value re) :
    re.Status = st := by
  unfold buildFromShopifyError at h
  rcases eo with _ | v
  · simp only [GoResult.value.injEq] at h
    subst h
    rfl
  · cases v with
    | jobj entries => exact (addMapEntries_value entries ⟨st, ef, []⟩ re h).1
    | jstr s =>
        simp only [GoResult.value.injEq] at h
        subst h
        rfl
    | jnum q =>
        simp only [GoResult.value.injEq] at h
        subst h
        rfl
    | jbool b =>
        simp only [GoResult.value.injEq] at h
        subst h
        rfl
    | jnull =>
        simp only [GoResult.value.injEq] at h
        subst h
        rfl
    | jarr a =>
        simp only [GoResult.value.injEq] at h
        subst h
        rfl

lemma buildFromShopifyError_exists (st : Int) (ef : String) (eo : Option JVal)
    (hnull : errorsHasNull eo = false) :
    ∃ re, buildFromShopifyError st ef eo = .value re := by
  rcases eo with _ | v
  · exact ⟨_, rfl⟩
  · cases v with
    | jobj entries =>
        simp only [errorsHasNull] at hnull
        exact addMapEntries_exists entries ⟨st, ef, []⟩ hnull
    | jstr s => exact ⟨_, rfl⟩
    | jnum q => exact ⟨_, rfl⟩
    | jbool b => exact ⟨_, rfl⟩
    | jnull => exact ⟨_, rfl⟩
    | jarr a => exact ⟨_, rfl⟩

lemma wrapSpecificError_not406 (r : Response) (e : ResponseError) (h : e.Status ≠ 406) :
    (wrapSpecificError r e).getMessage = e.Message ∧
    (wrapSpecificError r e).getErrors = e.Errors := by
  unfold wrapSpecificError
  by_cases h429 : e.Status = 429
  · simp [h429, GoError.getMessage, GoError.getErrors]
  · simp [h429, h, GoError.getMessage, GoError.getErrors]

lemma checkResponseError_ok (st : Int) (hd : Headers) (dr : Option String)
    (raw : String) (p : ParseResult) (hst : ¬ (200 ≤ st ∧ st < 300)) :
    CheckResponseError ⟨st, hd, .ok raw p, dr⟩ =
      (if raw.length > 0 then
        match p with
        | .malformed m => .value (some (.decodingError ⟨raw, m, st⟩))
        | .parsed ef eo =>
            match buildFromShopifyError st ef eo with
            | .crashed m => .crashed m
            | .value re => .value (some (wrapSpecificError ⟨st, hd, .ok raw p, dr⟩ re))
      else
        .value (some (wrapSpecificError ⟨st, hd, .ok raw p, dr⟩ ⟨st, "", []⟩))) := by
  unfold CheckResponseError
  rw [if_neg hst]
  rfl

lemma checkResponseError_parsed (st : Int) (hd : Headers) (dr : Option String)
    (raw ef : String) (eo : Option JVal) (re : ResponseError)
    (hst : ¬ (200 ≤ st ∧ st < 300)) (hraw : raw ≠ "")
    (hbuild : buildFromShopifyError st ef eo = .value re) :
    CheckResponseError ⟨st, hd, .ok raw (.parsed ef eo), dr⟩ =
      .value (some (wrapSpecificError ⟨st, hd, .ok raw (.parsed ef eo), dr⟩ re)) := by
  rw [checkResponseError_ok st hd dr raw (.parsed ef eo) hst,
    if_pos (ne_empty_of_length_pos raw hraw)]
  dsimp only
  rw [hbuild]

/-- C3 counterexample: the claim reads the fallback off the sub-error
*list* being non-empty, but the source tests the *joined string*: for a
`ResponseError` with no message and the non-empty sub-error list
`[""]`, the sorted join is empty, so the code returns the literal
"Unknown Error" rather than the (empty) join the claim prescribes. -/
theorem c3_counterexample :
    ResponseError.errString ⟨400, "", [""]⟩ = "Unknown Error" ∧
    ([""] : List String) ≠ [] ∧
    String.intercalate ", " (sortStrings [""]) = "" ∧
    ("Unknown Error" : String) ≠ "" := by
  refine ⟨by decide, by decide, by decide, by decide⟩

/-- C3 (amended): the string representation of a `ResponseError` is the
message verbatim when non-empty; otherwise the sub-errors sorted
lexicographically and joined with ", " whenever that joined string is
non-empty; otherwise the literal "Unknown Error" (a non-empty sub-error
list whose join is empty, such as `[""]`, also falls through to the
literal).  The sort really sorts: the result is ordered under the
byte-wise lexicographic order and is a permutation of the original
sub-errors. -/
theorem c3_theorem (e : ResponseError) :
    (e.Message ≠ "" → e.errString = e.Message) ∧
    (e.Message = "" → String.intercalate ", " (sortStrings e.Errors) ≠ "" →
      e.errString = String.intercalate ", " (sortStrings e.Errors)) ∧
    (e.Message = "" → String.intercalate ", " (sortStrings e.Errors) = "" →
      e.errString = "Unknown Error") ∧
    List.Sorted (fun a b => stringLe a b = true) (sortStrings e.Errors) ∧
    (sortStrings e.Errors).Perm e.Errors := by
  refine ⟨?_, ?_, ?_, ?_, ?_⟩
  · intro h
    simp [ResponseError.errString, h]
  · intro h1 h2
    simp [ResponseError.errString, h1, h2]
  · intro h1 h2
    simp [ResponseError.errString, h1, h2]
  · unfold sortStrings
    exact List.sorted_insertionSort _ _
  · unfold sortStrings
    exact List.perm_insertionSort _ _

/-- C3 witness: the sorted-join branch at the claim's concrete input. -/
theorem c3_witness :
    ResponseError.errString ⟨400, "", ["not a valid title", "not a valid description"]⟩ =
      "not a valid description, not a valid title" := by
  have h := (c3_theorem ⟨400, "", ["not a valid title", "not a valid description"]⟩).2.1
  exact (h rfl (by decide)).trans (by decide)

/-- C8 counterexample: a readable, non-2xx body whose JSON `errors`
field is an object with a null value makes the call panic on the nil
interface instead of returning an error value, so the original
universal "always returns a non-nil error" fails. -/
theorem c8_counterexample :
    CheckResponseError ⟨400, ⟨"", "", ""⟩,
        .ok "x" (.parsed "" (some (.jobj (.cons "k" .jnull .nil)))), none⟩ =
      .crashed goNilPanicMsg ∧
    ¬ (200 ≤ (400 : Int) ∧ (400 : Int) < 300) := by
  exact ⟨by decide, by decide⟩

/-- C8 (amended): a 2xx status yields no error whatever the body holds;
for a non-2xx status with a readable body, whenever the call returns at
all (it panics exactly on valid-JSON bodies whose `errors` object holds
a null value) the returned error is non-nil. -/
theorem c8_theorem (resp : Response) (raw : String) (p : ParseResult) :
    (200 ≤ resp.statusCode ∧ resp.statusCode < 300 → CheckResponseError resp = .value none) ∧
    (¬ (200 ≤ resp.statusCode ∧ resp.statusCode < 300) → resp.body = .ok raw p →
      ∀ g, CheckResponseError resp = .value g → g.isSome) := by
  constructor
  · intro h
    simp [CheckResponseError, h]
  · intro h hb g hg
    obtain ⟨st2, hd2, bd2, dr2⟩ := resp
    dsimp only at h hb hg
    subst hb
    rw [checkResponseError_ok st2 hd2 dr2 raw p h] at hg
    by_cases hlen : raw.length > 0
    · rw [if_pos hlen] at hg
      cases p with
      | malformed m =>
          simp only [GoResult.value.injEq] at hg
          subst hg
          rfl
      | parsed ef eo =>
          dsimp only at hg
          cases hbuild : buildFromShopifyError st2 ef eo with
          | crashed m =>
              rw [hbuild] at hg
              simp at hg
          | value re =>
              rw [hbuild] at hg
              simp only [GoResult.value.injEq] at hg
              subst hg
              rfl
    · rw [if_neg hlen] at hg
      simp only [GoResult.value.injEq] at hg
      subst hg
      rfl

/-- C8 witness: a 204 response with a malformed body gives no error,
and the error a plain 404 with a readable body returns is non-nil. -/
theorem c8_witness :
    CheckResponseError ⟨204, ⟨"", "", ""⟩, .ok "junk" (.malformed "oops"), none⟩ = .value none ∧
    (some (GoError.responseError ⟨404, "nope", []⟩) : Option GoError).isSome := by
  have h1 := c8_theorem ⟨204, ⟨"", "", ""⟩, .ok "junk" (.malformed "oops"), none⟩
    "junk" (.malformed "oops")
  have h2 := c8_theorem ⟨404, ⟨"", "", ""⟩, .ok "x" (.parsed "nope" none), none⟩
    "x" (.parsed "nope" none)
  exact ⟨h1.1 (by decide),
    h2.2 (by decide) rfl (some (.responseError ⟨404, "nope", []⟩)) (by decide)⟩

/-- C7: a non-2xx response with a non-empty body that is not valid JSON
yields a `ResponseDecodingError` carrying the raw body, the parser's
failure description and the status; an empty body is not a decoding
error and yields the status-specific wrapping of the error built from
empty message and empty sub-errors. -/
theorem c7_theorem (st : Int) (hd : Headers) (dr : Option String) (raw m : String)
    (p : ParseResult) (hst : ¬ (200 ≤ st ∧ st < 300)) :
    (raw ≠ "" →
      CheckResponseError ⟨st, hd, .ok raw (.malformed m), dr⟩ =
        .value (some (.decodingError ⟨raw, m, st⟩))) ∧
    (CheckResponseError ⟨st, hd, .ok "" p, dr⟩ =
      .value (some (wrapSpecificError ⟨st, hd, .ok "" p, dr⟩ ⟨st, "", []⟩))) := by
  constructor
  · intro hraw
    rw [checkResponseError_ok st hd dr raw (.malformed m) hst,
      if_pos (ne_empty_of_length_pos raw hraw)]
  · rw [checkResponseError_ok st hd dr "" p hst, if_neg (by decide)]

/-- C7 witness: the decoding error at a malformed 400 body, and the
empty-body path at a 500. -/
theorem c7_witness :
    CheckResponseError ⟨400, ⟨"", "", ""⟩, .ok "oops" (.malformed "invalid character"), none⟩ =
      .value (some (.decodingError ⟨"oops", "invalid character", 400⟩)) ∧
    CheckResponseError ⟨500, ⟨"", "", ""⟩, .ok "" (.parsed "" none), none⟩ =
      .value (some (.responseError ⟨500, "", []⟩)) := by
  have h1 := c7_theorem 400 ⟨"", "", ""⟩ none "oops" "invalid character"
    (.parsed "" none) (by decide)
  have h2 := c7_theorem 500 ⟨"", "", ""⟩ none "" "" (.parsed "" none) (by decide)
  exact ⟨h1.1 (by decide), h2.2.trans (by decide)⟩

/-- C6 counterexample: a 429 response whose non-empty body is not valid
JSON returns a `ResponseDecodingError`, not a `RateLimitError`, so the
claim's universal statement over all 429 responses fails. -/
theorem c6_counterexample :
    CheckResponseError ⟨429, ⟨"2", "", ""⟩, .ok "bad body" (.malformed "invalid character"), none⟩ =
      .value (some (.decodingError ⟨"bad body", "invalid character", 429⟩)) ∧
    GoError.isRateLimit (.decodingError ⟨"bad body", "invalid character", 429⟩) = false := by
  exact ⟨by decide, rfl⟩

/-- C6 (amended): for a 429 response whose body can be read and either
is empty or parses as JSON with an `errors` field that, when an object,
holds no null value (a null map value panics the call before any
wrapping), the result is a `RateLimitError` embedding the
`ResponseError` built from the body, with `RetryAfter` the
`Retry-After` header parsed as float seconds and truncated (0 when the
header is absent or unparseable, since the failed parse leaves the zero
value and the truncation of zero is zero). -/
theorem c6_theorem (hd : Headers) (dr : Option String) (raw ef : String) (eo : Option JVal)
    (hnull : errorsHasNull (if raw = "" then none else eo) = false) :
    ∃ re, buildFromShopifyError 429 (if raw = "" then "" else ef)
        (if raw = "" then none else eo) = .value re ∧
      CheckResponseError ⟨429, hd, .ok raw (.parsed ef eo), dr⟩ =
        .value (some (.rateLimitError ⟨re, decTrunc (goParseFloat hd.retryAfter)⟩)) := by
  by_cases hraw : raw = ""
  · subst hraw
    refine ⟨⟨429, "", []⟩, rfl, ?_⟩
    rw [checkResponseError_ok 429 hd dr "" (.parsed ef eo) (by decide), if_neg (by decide)]
    unfold wrapSpecificError
    rw [if_pos (rfl : (ResponseError.mk 429 "" []).Status = 429)]
  · rw [if_neg hraw] at hnull
    obtain ⟨re, hre⟩ := buildFromShopifyError_exists 429 ef eo hnull
    refine ⟨re, ?_, ?_⟩
    · rw [if_neg hraw, if_neg hraw]
      exact hre
    · rw [checkResponseError_parsed 429 hd dr raw ef eo re (by decide) hraw hre]
      unfold wrapSpecificError
      rw [if_pos (buildFromShopifyError_value_Status 429 ef eo re hre)]

/-- C6 witness: header "2.5" truncates to a 2-second retry wait. -/
theorem c6_witness :
    CheckResponseError ⟨429, ⟨"2.5", "", ""⟩, .ok "x" (.parsed "" none), none⟩ =
      .value (some (.rateLimitError ⟨⟨429, "", []⟩, 2⟩)) := by
  obtain ⟨re, hre, hc⟩ := c6_theorem ⟨"2.5", "", ""⟩ none "x" "" none (by decide)
  have hre2 : re = ⟨429, "", []⟩ := by
    have h3 : GoResult.value (α := ResponseError) re = .value ⟨429, "", []⟩ :=
      hre.symm.trans (by decide)
    simpa using h3
  subst hre2
  exact hc.trans (by decide)

/-- C5 counterexample: at status 406 the message of an array-shaped
`errors` body is overridden with the standard status text, so it is not
the comma-join of the stringified elements the claim prescribes. -/
theorem c5_counterexample :
    CheckResponseError ⟨406, ⟨"", "", ""⟩,
        .ok "x" (.parsed "" (some (.jarr (.cons (.jstr "not") (.cons (.jstr "very good") .nil))))),
        none⟩ =
      .value (some (.responseError ⟨406, "Not Acceptable", ["not", "very good"]⟩)) ∧
    ("Not Acceptable" : String) ≠ "not, very good" := by
  exact ⟨by decide, by decide⟩

/-- C5 (amended): for a non-2xx, non-406 response whose body parses as
JSON with an array-shaped `errors` field, the produced error carries
the elements stringified in array order (not sorted) as sub-errors and
their ", "-join, in that same order, as message (at 406 the message is
instead overridden with the standard status text; at 429 these fields
are those of the embedded `ResponseError`). -/
theorem c5_theorem (st : Int) (hd : Headers) (dr : Option String) (raw ef : String) (a : JArr)
    (hst : ¬ (200 ≤ st ∧ st < 300)) (h406 : st ≠ 406) (hraw : raw ≠ "") :
    resultErrors (CheckResponseError ⟨st, hd, .ok raw (.parsed ef (some (.jarr a))), dr⟩) =
      some (goSprintArr a) ∧
    resultMessage (CheckResponseError ⟨st, hd, .ok raw (.parsed ef (some (.jarr a))), dr⟩) =
      some (String.intercalate ", " (goSprintArr a)) := by
  have hbuild : buildFromShopifyError st ef (some (.jarr a)) =
      .value ⟨st, String.intercalate ", " (goSprintArr a), goSprintArr a⟩ := rfl
  rw [checkResponseError_parsed st hd dr raw ef (some (.jarr a)) _ hst hraw hbuild]
  have hw := wrapSpecificError_not406 ⟨st, hd, .ok raw (.parsed ef (some (.jarr a))), dr⟩
    ⟨st, String.intercalate ", " (goSprintArr a), goSprintArr a⟩ h406
  constructor
  · simp only [resultErrors]
    rw [hw.2]
  · simp only [resultMessage]
    rw [hw.1]

/-- C5 witness: the claim's concrete 500-status instance. -/
theorem c5_witness :
    resultErrors (CheckResponseError ⟨500, ⟨"", "", ""⟩,
        .ok "x" (.parsed "" (some (.jarr (.cons (.jstr "not") (.cons (.jstr "very good") .nil))))),
        none⟩) = some ["not", "very good"] ∧
    resultMessage (CheckResponseError ⟨500, ⟨"", "", ""⟩,
        .ok "x" (.parsed "" (some (.jarr (.cons (.jstr "not") (.cons (.jstr "very good") .nil))))),
        none⟩) = some "not, very good" := by
  have h := c5_theorem 500 ⟨"", "", ""⟩ none "x" ""
    (.cons (.jstr "not") (.cons (.jstr "very good") .nil)) (by decide) (by decide) (by decide)
  exact ⟨h.1.trans (by decide), h.2.trans (by decide)⟩

/-- C4 counterexample: at status 406 the message of an object-shaped
`errors` body is overridden with the standard status text, not the
first sub-error the claim prescribes. -/
theorem c4_counterexample :
    CheckResponseError ⟨406, ⟨"", "", ""⟩,
        .ok "x" (.parsed "" (some (.jobj (.cons "order" (.jarr (.cons (.jstr "order is wrong") .nil)) .nil)))),
        none⟩ =
      .value (some (.responseError ⟨406, "Not Acceptable", ["order: order is wrong"]⟩)) ∧
    ("Not Acceptable" : String) ≠ "order: order is wrong" := by
  exact ⟨by decide, by decide⟩

/-- C4 (amended): for a non-2xx, non-406 response whose body parses as
JSON with an object-shaped `errors` field none of whose values is JSON
null (a null map value panics the call in the kind switch), the
produced error's sub-errors are, per entry in iteration order, one
`"<key>: <element>"` per element of an array value and one
`"<key>: <value>"` for a string value; the message is the `error` field
when non-empty, otherwise the first sub-error encountered (at 406 the
message is instead overridden with the standard status text; at 429
these fields are those of the embedded `ResponseError`). -/
theorem c4_theorem (st : Int) (hd : Headers) (dr : Option String) (raw ef : String)
    (entries : JObj) (hst : ¬ (200 ≤ st ∧ st < 300)) (h406 : st ≠ 406) (hraw : raw ≠ "")
    (hnull : objHasNull entries = false) :
    resultErrors (CheckResponseError
        ⟨st, hd, .ok raw (.parsed ef (some (.jobj entries))), dr⟩) =
      some (flattenObj entries) ∧
    resultMessage (CheckResponseError
        ⟨st, hd, .ok raw (.parsed ef (some (.jobj entries))), dr⟩) =
      some (if ef = "" then (flattenObj entries).headD "" else ef) := by
  obtain ⟨re, hre⟩ := addMapEntries_exists entries ⟨st, ef, []⟩ hnull
  have hbuild : buildFromShopifyError st ef (some (.jobj entries)) = .value re := hre
  obtain ⟨hsS, hsE, hsM⟩ := addMapEntries_value entries ⟨st, ef, []⟩ re hre
  rw [checkResponseError_parsed st hd dr raw ef (some (.jobj entries)) re hst hraw hbuild]
  have hw := wrapSpecificError_not406
    ⟨st, hd, .ok raw (.parsed ef (some (.jobj entries))), dr⟩ re (by rw [hsS]; exact h406)
  constructor
  · simp only [resultErrors]
    rw [hw.2, hsE]
    simp
  · simp only [resultMessage]
    rw [hw.1, hsM]

/-- C4 witness: the claim's concrete 400-status instance. -/
theorem c4_witness :
    resultErrors (CheckResponseError ⟨400, ⟨"", "", ""⟩,
        .ok "x" (.parsed "" (some (.jobj (.cons "order" (.jarr (.cons (.jstr "order is wrong") .nil)) .nil)))),
        none⟩) = some ["order: order is wrong"] ∧
    resultMessage (CheckResponseError ⟨400, ⟨"", "", ""⟩,
        .ok "x" (.parsed "" (some (.jobj (.cons "order" (.jarr (.cons (.jstr "order is wrong") .nil)) .nil)))),
        none⟩) = some "order: order is wrong" := by
  have h := c4_theorem 400 ⟨"", "", ""⟩ none "x" ""
    (.cons "order" (.jarr (.cons (.jstr "order is wrong") .nil)) .nil)
    (by decide) (by decide) (by decide) (by decide)
  exact ⟨h.1.trans (by decide), h.2.trans (by decide)⟩

lemma doLoop_attempts_le (outs : List DoOutcome) : ∀ (k : Int) (a : Nat) (s : List Int),
    (doLoop k a s outs).2.1 ≤ a + max 1 k.toNat := by
  cases outs with
  | nil =>
      intro k a s
      simp only [doLoop]
      omega
  | cons o rest =>
      intro k a s
      cases o with
      | transport m =>
          simp only [doLoop]
          omega
      | ok resp =>
          simp only [doLoop]
          cases hc : CheckResponseError resp with
          | crashed m2 =>
              exact (by omega : a + 1 ≤ a + max 1 k.toNat)
          | value og =>
              cases og with
              | none =>
                  exact (by omega : a + 1 ≤ a + max 1 k.toNat)
              | some e =>
              simp only
              by_cases hk : k ≤ 1
              · rw [if_pos hk]
                exact (by omega : a + 1 ≤ a + max 1 k.toNat)
              · rw [if_neg hk]
                have ihrl : ∀ s2 : List Int,
                    (doLoop (k - 1) (a + 1) s2 rest).2.1 ≤ a + max 1 k.toNat := by
                  intro s2
                  have ihr := doLoop_attempts_le rest (k - 1) (a + 1) s2
                  omega
                have hret : a + 1 ≤ a + max 1 k.toNat := by omega
                cases e with
                | rateLimitError rl => exact ihrl (s ++ [rl.RetryAfter])
                | readErr m =>
                    by_cases h503 : resp.statusCode = 503
                    · rw [if_pos h503]
                      exact ihrl s
                    · rw [if_neg h503]
                      exact hret
                | decodingError d =>
                    by_cases h503 : resp.statusCode = 503
                    · rw [if_pos h503]
                      exact ihrl s
                    · rw [if_neg h503]
                      exact hret
                | responseError re =>
                    by_cases h503 : resp.statusCode = 503
                    · rw [if_pos h503]
                      exact ihrl s
                    · rw [if_neg h503]
                      exact hret

lemma doLoop_not_exhausted (outs : List DoOutcome) : ∀ (k : Int) (a : Nat) (s : List Int),
    max 1 k.toNat ≤ outs.length → (doLoop k a s outs).1 ≠ .exhausted := by
  cases outs with
  | nil =>
      intro k a s hlen
      simp at hlen
  | cons o rest =>
      intro k a s hlen
      cases o with
      | transport m => simp [doLoop]
      | ok resp =>
          simp only [doLoop]
          cases hc : CheckResponseError resp with
          | crashed m => simp
          | value og =>
              cases og with
              | none => simp
              | some e =>
              simp only
              by_cases hk : k ≤ 1
              · rw [if_pos hk]
                simp
              · rw [if_neg hk]
                have hlen2 : max 1 (k - 1).toNat ≤ rest.length := by
                  simp only [List.length_cons] at hlen
                  omega
                cases e with
                | rateLimitError rl =>
                    exact doLoop_not_exhausted rest (k - 1) (a + 1) (s ++ [rl.RetryAfter]) hlen2
                | readErr m =>
                    by_cases h503 : resp.statusCode = 503
                    · rw [if_pos h503]
                      exact doLoop_not_exhausted rest (k - 1) (a + 1) s hlen2
                    · rw [if_neg h503]
                      simp
                | decodingError d =>
                    by_cases h503 : resp.statusCode = 503
                    · rw [if_pos h503]
                      exact doLoop_not_exhausted rest (k - 1) (a + 1) s hlen2
                    · rw [if_neg h503]
                      simp
                | responseError re =>
                    by_cases h503 : resp.statusCode = 503
                    · rw [if_pos h503]
                      exact doLoop_not_exhausted rest (k - 1) (a + 1) s hlen2
                    · rw [if_neg h503]
                      simp

lemma doLoop_no_transport (outs : List DoOutcome) : ∀ (k : Int) (a : Nat) (s : List Int),
    (∀ o ∈ outs, ∀ m, o ≠ .transport m) →
    ∀ m, (doLoop k a s outs).1 ≠ .transport m := by
  cases outs with
  | nil =>
      intro k a s _ m
      simp [doLoop]
  | cons o rest =>
      intro k a s hok m
      cases o with
      | transport m2 => exact absurd rfl (hok (.transport m2) (List.mem_cons_self _ _) m2)
      | ok resp =>
          have hok2 : ∀ o ∈ rest, ∀ m, o ≠ .transport m :=
            fun o ho m2 => hok o (List.mem_cons_of_mem _ ho) m2
          simp only [doLoop]
          cases hc : CheckResponseError resp with
          | crashed m2 => simp
          | value og =>
              cases og with
              | none => simp
              | some e =>
              simp only
              by_cases hk : k ≤ 1
              · rw [if_pos hk]
                simp
              · rw [if_neg hk]
                cases e with
                | rateLimitError rl =>
                    exact doLoop_no_transport rest (k - 1) (a + 1) (s ++ [rl.RetryAfter]) hok2 m
                | readErr m3 =>
                    by_cases h503 : resp.statusCode = 503
                    · rw [if_pos h503]
                      exact doLoop_no_transport rest (k - 1) (a + 1) s hok2 m
                    · rw [if_neg h503]
                      simp
                | decodingError d =>
                    by_cases h503 : resp.statusCode = 503
                    · rw [if_pos h503]
                      exact doLoop_no_transport rest (k - 1) (a + 1) s hok2 m
                    · rw [if_neg h503]
                      simp
                | responseError re =>
                    by_cases h503 : resp.statusCode = 503
                    · rw [if_pos h503]
                      exact doLoop_no_transport rest (k - 1) (a + 1) s hok2 m
                    · rw [if_neg h503]
                      simp

lemma updateRateLimits_preserve (c : Client) (h : Headers) :
    (updateRateLimits c h).apiVersion = c.apiVersion ∧
    (updateRateLimits c h).attempts = c.attempts ∧
    (updateRateLimits c h).retries = c.retries := by
  unfold updateRateLimits
  dsimp only
  split <;> exact ⟨rfl, rfl, rfl⟩

lemma updateRateLimits_rate (c : Client) (h : Headers) (u l : String)
    (hsp : goSplit h.apiCallLimit '/' = [u, l]) :
    (updateRateLimits c h).rateLimits =
      ⟨goAtoi u, goAtoi l, goParseFloat h.retryAfter⟩ := by
  unfold updateRateLimits
  rw [hsp]

lemma updateRateLimits_retrySec (c : Client) (h : Headers) :
    (updateRateLimits c h).rateLimits.RetryAfterSeconds = goParseFloat h.retryAfter := rfl


lemma doFinish_success_client (c : Client) (hT : Bool) (resp : Response) (a : Nat)
    (s : List Int) :
    (doFinish c hT (.success resp, a, s)).client =
      (match (if hT then resp.decodeResult else none) with
       | some _ =>
           if c.apiVersion = defaultApiVersion ∧ resp.headers.apiVersion ≠ "" then
             { c with attempts := a, apiVersion := resp.headers.apiVersion }
           else { c with attempts := a }
       | none =>
           updateRateLimits
             (if c.apiVersion = defaultApiVersion ∧ resp.headers.apiVersion ≠ "" then
               { c with attempts := a, apiVersion := resp.headers.apiVersion }
             else { c with attempts := a }) resp.headers) := by
  simp only [doFinish]
  cases (if hT then resp.decodeResult else none) <;> rfl

lemma doFinish_success_result (c : Client) (hT : Bool) (resp : Response) (a : Nat)
    (s : List Int) :
    (doFinish c hT (.success resp, a, s)).result =
      (match (if hT then resp.decodeResult else none) with
       | some msg => .decodeErr msg
       | none => .success resp.headers) := by
  simp only [doFinish]
  cases (if hT then resp.decodeResult else none) <;> rfl

lemma doFinish_success_apiVersion (c : Client) (hT : Bool) (resp : Response) (a : Nat)
    (s : List Int) :
    (doFinish c hT (.success resp, a, s)).client.apiVersion =
      (if c.apiVersion = defaultApiVersion ∧ resp.headers.apiVersion ≠ "" then
        resp.headers.apiVersion
      else c.apiVersion) := by
  rw [doFinish_success_client]
  cases (if hT then resp.decodeResult else none) with
  | some msg =>
      by_cases hpin : c.apiVersion = defaultApiVersion ∧ resp.headers.apiVersion ≠ ""
      · rw [if_pos hpin, if_pos hpin]
      · rw [if_neg hpin, if_neg hpin]
  | none =>
      by_cases hpin : c.apiVersion = defaultApiVersion ∧ resp.headers.apiVersion ≠ ""
      · rw [if_pos hpin, if_pos hpin]
        exact (updateRateLimits_preserve _ _).1
      · rw [if_neg hpin, if_neg hpin]
        exact (updateRateLimits_preserve _ _).1

lemma doFinish_attempts_sleeps (c : Client) (hT : Bool) (ex : LoopExit) (a : Nat)
    (s : List Int) :
    (doFinish c hT (ex, a, s)).client.attempts = a ∧
    (doFinish c hT (ex, a, s)).sleeps = s := by
  cases ex with
  | transport m => exact ⟨rfl, rfl⟩
  | apiErr e => exact ⟨rfl, rfl⟩
  | exhausted => exact ⟨rfl, rfl⟩
  | crashed m => exact ⟨rfl, rfl⟩
  | success resp =>
      constructor
      · rw [doFinish_success_client]
        cases (if hT then resp.decodeResult else none) with
        | some msg =>
            by_cases hpin : c.apiVersion = defaultApiVersion ∧ resp.headers.apiVersion ≠ ""
            · rw [if_pos hpin]
            · rw [if_neg hpin]
        | none =>
            by_cases hpin : c.apiVersion = defaultApiVersion ∧ resp.headers.apiVersion ≠ ""
            · rw [if_pos hpin]
              exact (updateRateLimits_preserve _ _).2.1
            · rw [if_neg hpin]
              exact (updateRateLimits_preserve _ _).2.1
      · simp only [doFinish]
        cases (if hT then resp.decodeResult else none) <;> rfl

lemma doFinish_result_shape (c : Client) (hT : Bool) (ex : LoopExit) (a : Nat)
    (s : List Int) :
    ((doFinish c hT (ex, a, s)).result = .exhausted → ex = .exhausted) ∧
    (∀ m, (doFinish c hT (ex, a, s)).result = .transportErr m → ex = .transport m) := by
  cases ex with
  | transport m =>
      constructor
      · intro h
        exact absurd h (by simp [doFinish])
      · intro m2 h
        simp only [doFinish, DoGetResult.transportErr.injEq] at h
        rw [h]
  | apiErr e =>
      exact ⟨by simp [doFinish], by intro m h; simp [doFinish] at h⟩
  | exhausted =>
      exact ⟨fun _ => rfl, by intro m h; simp [doFinish] at h⟩
  | crashed m =>
      exact ⟨by simp [doFinish], by intro m2 h; simp [doFinish] at h⟩
  | success resp =>
      constructor
      · intro h
        rw [doFinish_success_result] at h
        cases hdec : (if hT then resp.decodeResult else none) with
        | some msg => rw [hdec] at h; simp at h
        | none => rw [hdec] at h; simp at h
      · intro m h
        rw [doFinish_success_result] at h
        cases hdec : (if hT then resp.decodeResult else none) with
        | some msg => rw [hdec] at h; simp at h
        | none => rw [hdec] at h; simp at h

lemma doGetHeaders_finish (c : Client) (hT : Bool) (outs : List DoOutcome)
    (ex : LoopExit) (a : Nat) (s : List Int)
    (hL : doLoop c.retries 0 [] outs = (ex, a, s)) :
    doGetHeaders c hT outs = doFinish c hT (ex, a, s) := by
  unfold doGetHeaders
  rw [hL]

/-- C2: with a retry budget r and any sequence of completed (non
transport-error) responses long enough to feed every attempt, the loop
terminates having dispatched at most r + 1 requests, and ends in a
success or a final error (never in the model's exhaustion artefact, and
never in a transport error). -/
theorem c2_theorem (r : Nat) (c : Client) (hT : Bool) (outs : List DoOutcome)
    (hr : c.retries = (r : Int))
    (hok : ∀ o ∈ outs, ∀ m, o ≠ DoOutcome.transport m)
    (hlen : r + 1 ≤ outs.length) :
    (doGetHeaders c hT outs).client.attempts ≤ r + 1 ∧
    (doGetHeaders c hT outs).result ≠ .exhausted ∧
    (∀ m, (doGetHeaders c hT outs).result ≠ .transportErr m) := by
  rcases hL : doLoop c.retries 0 [] outs with ⟨ex, a, s⟩
  rw [doGetHeaders_finish c hT outs ex a s hL]
  have hatt := doLoop_attempts_le outs c.retries 0 []
  rw [hL] at hatt
  simp only at hatt
  have hbound : max 1 c.retries.toNat ≤ outs.length := by omega
  have hnex := doLoop_not_exhausted outs c.retries 0 [] hbound
  rw [hL] at hnex
  have hntr := doLoop_no_transport outs c.retries 0 [] hok
  rw [hL] at hntr
  obtain ⟨hA, hS⟩ := doFinish_attempts_sleeps c hT ex a s
  obtain ⟨hE, hT2⟩ := doFinish_result_shape c hT ex a s
  refine ⟨by omega, ?_, ?_⟩
  · intro hres
    exact hnex (hE hres)
  · intro m hres
    exact hntr m (hT2 m hres)

/-- C2 witness: budget 0 with one completed error response makes one
attempt and ends in a final error. -/
theorem c2_witness :
    (doGetHeaders ⟨"stable", 0, 0, ⟨0, 0, ⟨0, 0⟩⟩⟩ false
        [.ok ⟨500, ⟨"", "", ""⟩, .ok "" (.parsed "" none), none⟩]).client.attempts ≤ 1 ∧
    (doGetHeaders ⟨"stable", 0, 0, ⟨0, 0, ⟨0, 0⟩⟩⟩ false
        [.ok ⟨500, ⟨"", "", ""⟩, .ok "" (.parsed "" none), none⟩]).result ≠ .exhausted := by
  have h := c2_theorem 0 ⟨"stable", 0, 0, ⟨0, 0, ⟨0, 0⟩⟩⟩ false
    [.ok ⟨500, ⟨"", "", ""⟩, .ok "" (.parsed "" none), none⟩]
    rfl
    (by
      intro o ho m
      simp only [List.mem_singleton] at ho
      subst ho
      exact fun hcon => DoOutcome.noConfusion hcon)
    (by simp)
  exact ⟨h.1, h.2.1⟩

/-- C9: on a successful response the API version is adopted from the
`X-Shopify-API-Version` header when the client still holds the "stable"
sentinel and the header is non-empty; and once the version differs from
the sentinel, no call changes it again. -/
theorem c9_theorem (c : Client) (hT : Bool) (outs : List DoOutcome) (resp : Response)
    (a : Nat) (s : List Int) :
    (doLoop c.retries 0 [] outs = (.success resp, a, s) →
      c.apiVersion = defaultApiVersion → resp.headers.apiVersion ≠ "" →
      (doGetHeaders c hT outs).client.apiVersion = resp.headers.apiVersion) ∧
    (c.apiVersion ≠ defaultApiVersion →
      (doGetHeaders c hT outs).client.apiVersion = c.apiVersion) := by
  constructor
  · intro hL hva hresp
    rw [doGetHeaders_finish c hT outs (.success resp) a s hL,
      doFinish_success_apiVersion, if_pos ⟨hva, hresp⟩]
  · intro hva
    rcases hL : doLoop c.retries 0 [] outs with ⟨ex, a2, s2⟩
    rw [doGetHeaders_finish c hT outs ex a2 s2 hL]
    cases ex with
    | transport m => rfl
    | apiErr e => rfl
    | exhausted => rfl
    | crashed m => rfl
    | success resp2 =>
        rw [doFinish_success_apiVersion, if_neg (fun hcond => hva hcond.1)]

/-- C9 witness: a first call at the sentinel adopts the header version;
a pinned client keeps its version across a call whose response carries
a different one. -/
theorem c9_witness :
    (doGetHeaders ⟨"stable", 0, 0, ⟨0, 0, ⟨0, 0⟩⟩⟩ false
        [.ok ⟨200, ⟨"", "", "2020-01"⟩, .ok "b" (.parsed "" none), none⟩]).client.apiVersion
      = "2020-01" ∧
    (doGetHeaders ⟨"2020-01", 0, 0, ⟨0, 0, ⟨0, 0⟩⟩⟩ false
        [.ok ⟨200, ⟨"", "", "2021-04"⟩, .ok "b" (.parsed "" none), none⟩]).client.apiVersion
      = "2020-01" := by
  have h1 := c9_theorem ⟨"stable", 0, 0, ⟨0, 0, ⟨0, 0⟩⟩⟩ false
    [.ok ⟨200, ⟨"", "", "2020-01"⟩, .ok "b" (.parsed "" none), none⟩]
    ⟨200, ⟨"", "", "2020-01"⟩, .ok "b" (.parsed "" none), none⟩ 1 []
  have h2 := c9_theorem ⟨"2020-01", 0, 0, ⟨0, 0, ⟨0, 0⟩⟩⟩ false
    [.ok ⟨200, ⟨"", "", "2021-04"⟩, .ok "b" (.parsed "" none), none⟩]
    ⟨200, ⟨"", "", "2021-04"⟩, .ok "b" (.parsed "" none), none⟩ 1 []
  exact ⟨h1.1 rfl rfl (by decide), h2.2 (by decide)⟩

/-- C1 counterexample: a completed (non-transport) 400 response that
carries a well-formed `X-Shopify-Shop-Api-Call-Limit: 39/40` header and
a parseable `Retry-After: 3.5` leaves the rate-limit state at its prior
zeros, because the update runs only on the success path; the claim
would require it to become 39/40/3.5. -/
theorem c1_counterexample :
    (doGetHeaders ⟨"2020-01", 0, 0, ⟨0, 0, ⟨0, 0⟩⟩⟩ false
        [.ok ⟨400, ⟨"3.5", "39/40", ""⟩, .ok "" (.parsed "" none), none⟩]).client.rateLimits
      = ⟨0, 0, ⟨0, 0⟩⟩ ∧
    goSplit "39/40" '/' = ["39", "40"] ∧
    (goAtoi "39", goAtoi "40") ≠ ((0 : Int), (0 : Int)) ∧
    goParseFloat "3.5" ≠ ⟨0, 0⟩ := by
  exact ⟨by decide, by decide, by decide, by decide⟩

/-- C1 (amended): the rate-limit state is updated only when the loop
exits in success and the body decode (when a target was supplied)
succeeds: then, if the call-limit header splits on "/" into exactly two
fields, RequestCount and BucketSize become the two parsed integers and
RetryAfterSeconds the parsed Retry-After value (the latter is stored
unconditionally on that path); any run whose result is not a success
leaves the rate-limit state exactly as it was. -/
theorem c1_theorem (c : Client) (hT : Bool) (outs : List DoOutcome) (resp : Response)
    (a : Nat) (s : List Int) (u l : String) :
    (doLoop c.retries 0 [] outs = (.success resp, a, s) →
      (if hT then resp.decodeResult else none) = none →
      ((goSplit resp.headers.apiCallLimit '/' = [u, l] →
          (doGetHeaders c hT outs).client.rateLimits =
            ⟨goAtoi u, goAtoi l, goParseFloat resp.headers.retryAfter⟩) ∧
        (doGetHeaders c hT outs).client.rateLimits.RetryAfterSeconds =
          goParseFloat resp.headers.retryAfter)) ∧
    ((∀ h2, (doGetHeaders c hT outs).result ≠ .success h2) →
      (doGetHeaders c hT outs).client.rateLimits = c.rateLimits) := by
  constructor
  · intro hL hdec
    rw [doGetHeaders_finish c hT outs (.success resp) a s hL, doFinish_success_client, hdec]
    constructor
    · intro hsp
      exact updateRateLimits_rate _ resp.headers u l hsp
    · exact updateRateLimits_retrySec _ resp.headers
  · intro hns
    rcases hL : doLoop c.retries 0 [] outs with ⟨ex, a2, s2⟩
    rw [doGetHeaders_finish c hT outs ex a2 s2 hL] at hns ⊢
    cases ex with
    | transport m => rfl
    | apiErr e => rfl
    | exhausted => rfl
    | crashed m => rfl
    | success resp2 =>
        cases hdec : (if hT then resp2.decodeResult else none) with
        | some msg =>
            rw [doFinish_success_client, hdec]
            by_cases hpin : c.apiVersion = defaultApiVersion ∧ resp2.headers.apiVersion ≠ ""
            · rw [if_pos hpin]
            · rw [if_neg hpin]
        | none =>
            exfalso
            apply hns resp2.headers
            rw [doFinish_success_result, hdec]

/-- C1 witness: a successful call stores 39/40 and 1.5 seconds from the
headers. -/
theorem c1_witness :
    (doGetHeaders ⟨"stable", 0, 0, ⟨0, 0, ⟨0, 0⟩⟩⟩ false
        [.ok ⟨200, ⟨"1.5", "39/40", ""⟩, .ok "b" (.parsed "" none), none⟩]).client.rateLimits
      = ⟨39, 40, ⟨15, 1⟩⟩ := by
  have h := c1_theorem ⟨"stable", 0, 0, ⟨0, 0, ⟨0, 0⟩⟩⟩ false
    [.ok ⟨200, ⟨"1.5", "39/40", ""⟩, .ok "b" (.parsed "" none), none⟩]
    ⟨200, ⟨"1.5", "39/40", ""⟩, .ok "b" (.parsed "" none), none⟩ 1 [] "39" "40"
  exact ((h.1 rfl rfl).1 (by decide)).trans (by decide)

lemma doLoop_budget01 (outs : List DoOutcome) : ∀ (a : Nat) (s : List Int),
    doLoop 0 a s outs = doLoop 1 a s outs := by
  cases outs with
  | nil => intro a s; rfl
  | cons o rest =>
      intro a s
      cases o with
      | transport m => rfl
      | ok resp =>
          simp only [doLoop]
          cases CheckResponseError resp with
          | crashed m => rfl
          | value og =>
              cases og with
              | none => rfl
              | some e =>
                  simp only
                  rw [if_pos (by norm_num : (0 : Int) ≤ 1), if_pos (le_refl (1 : Int))]

lemma doLoop_first (k : Int) (hk : k ≤ 1) (o : DoOutcome) (rest : List DoOutcome)
    (a : Nat) (s : List Int) :
    (doLoop k a s (o :: rest)).2.1 = a + 1 ∧ (doLoop k a s (o :: rest)).2.2 = s := by
  cases o with
  | transport m => exact ⟨rfl, rfl⟩
  | ok resp =>
      simp only [doLoop]
      cases CheckResponseError resp with
      | crashed m => exact ⟨rfl, rfl⟩
      | value og =>
          cases og with
          | none => exact ⟨rfl, rfl⟩
          | some e =>
              simp only
              rw [if_pos hk]
              exact ⟨rfl, rfl⟩

lemma updateRateLimits_rl_congr (c1 c2 : Client) (h : Headers)
    (hc : c1.rateLimits = c2.rateLimits) :
    (updateRateLimits c1 h).rateLimits = (updateRateLimits c2 h).rateLimits := by
  unfold updateRateLimits
  rcases goSplit h.apiCallLimit '/' with _ | ⟨u, _ | ⟨l, _ | ⟨x, xs⟩⟩⟩ <;> simp [hc]

/-- C10: a client with retry budget 0 and one with budget 1 behave
identically: given any non-empty outcome sequence both make exactly one
attempt, never sleep, return the same result, and leave the same
rate-limit state and API version, because the loop returns the error
whenever the remaining-retries counter is at most 1. -/
theorem c10_theorem (c : Client) (hT : Bool) (outs : List DoOutcome) (hne : outs ≠ []) :
    (doGetHeaders { c with retries := 0 } hT outs).result =
      (doGetHeaders { c with retries := 1 } hT outs).result ∧
    (doGetHeaders { c with retries := 0 } hT outs).sleeps = [] ∧
    (doGetHeaders { c with retries := 1 } hT outs).sleeps = [] ∧
    (doGetHeaders { c with retries := 0 } hT outs).client.attempts = 1 ∧
    (doGetHeaders { c with retries := 1 } hT outs).client.attempts = 1 ∧
    (doGetHeaders { c with retries := 0 } hT outs).client.rateLimits =
      (doGetHeaders { c with retries := 1 } hT outs).client.rateLimits ∧
    (doGetHeaders { c with retries := 0 } hT outs).client.apiVersion =
      (doGetHeaders { c with retries := 1 } hT outs).client.apiVersion := by
  cases outs with
  | nil => exact absurd rfl hne
  | cons o rest =>
      rcases hL : doLoop 1 0 [] (o :: rest) with ⟨ex, a, s⟩
      have hL0 : doLoop 0 0 [] (o :: rest) = (ex, a, s) :=
        (doLoop_budget01 (o :: rest) 0 []).trans hL
      have hfirst := doLoop_first 1 (le_refl 1) o rest 0 []
      rw [hL] at hfirst
      simp only at hfirst
      obtain ⟨ha, hs⟩ := hfirst
      subst ha
      subst hs
      rw [doGetHeaders_finish { c with retries := 0 } hT (o :: rest) ex 1 [] hL0,
        doGetHeaders_finish { c with retries := 1 } hT (o :: rest) ex 1 [] hL]
      cases ex with
      | transport m => exact ⟨rfl, rfl, rfl, rfl, rfl, rfl, rfl⟩
      | apiErr e => exact ⟨rfl, rfl, rfl, rfl, rfl, rfl, rfl⟩
      | exhausted => exact ⟨rfl, rfl, rfl, rfl, rfl, rfl, rfl⟩
      | crashed m => exact ⟨rfl, rfl, rfl, rfl, rfl, rfl, rfl⟩
      | success resp =>
          refine ⟨?_, (doFinish_attempts_sleeps _ hT _ 1 []).2,
            (doFinish_attempts_sleeps _ hT _ 1 []).2,
            (doFinish_attempts_sleeps _ hT _ 1 []).1,
            (doFinish_attempts_sleeps _ hT _ 1 []).1, ?_, ?_⟩
          · rw [doFinish_success_result, doFinish_success_result]
          · rw [doFinish_success_client, doFinish_success_client]
            cases hdec : (if hT then resp.decodeResult else none) with
            | some msg =>
                by_cases hpin : c.apiVersion = defaultApiVersion ∧ resp.headers.apiVersion ≠ ""
                · rw [if_pos hpin, if_pos hpin]
                · rw [if_neg hpin, if_neg hpin]
            | none =>
                by_cases hpin : c.apiVersion = defaultApiVersion ∧ resp.headers.apiVersion ≠ ""
                · rw [if_pos hpin, if_pos hpin]
                  exact updateRateLimits_rl_congr _ _ resp.headers rfl
                · rw [if_neg hpin, if_neg hpin]
                  exact updateRateLimits_rl_congr _ _ resp.headers rfl
          · rw [doFinish_success_apiVersion, doFinish_success_apiVersion]

/-- C10 witness: budgets 0 and 1 agree on a 429 followed by a success:
the rate-limit error is returned immediately after one attempt with no
sleep. -/
theorem c10_witness :
    (doGetHeaders ⟨"stable", 0, 0, ⟨0, 0, ⟨0, 0⟩⟩⟩ false
        [.ok ⟨429, ⟨"2", "", ""⟩, .ok "" (.parsed "" none), none⟩,
         .ok ⟨200, ⟨"", "", ""⟩, .ok "b" (.parsed "" none), none⟩]).result =
      (doGetHeaders ⟨"stable", 1, 0, ⟨0, 0, ⟨0, 0⟩⟩⟩ false
        [.ok ⟨429, ⟨"2", "", ""⟩, .ok "" (.parsed "" none), none⟩,
         .ok ⟨200, ⟨"", "", ""⟩, .ok "b" (.parsed "" none), none⟩]).result ∧
    (doGetHeaders ⟨"stable", 0, 0, ⟨0, 0, ⟨0, 0⟩⟩⟩ false
        [.ok ⟨429, ⟨"2", "", ""⟩, .ok "" (.parsed "" none), none⟩,
         .ok ⟨200, ⟨"", "", ""⟩, .ok "b" (.parsed "" none), none⟩]).sleeps = [] ∧
    (doGetHeaders ⟨"stable", 0, 0, ⟨0, 0, ⟨0, 0⟩⟩⟩ false
        [.ok ⟨429, ⟨"2", "", ""⟩, .ok "" (.parsed "" none), none⟩,
         .ok ⟨200, ⟨"", "", ""⟩, .ok "b" (.parsed "" none), none⟩]).client.attempts = 1 := by
  have h := c10_theorem ⟨"stable", 0, 0, ⟨0, 0, ⟨0, 0⟩⟩⟩ false
    [.ok ⟨429, ⟨"2", "", ""⟩, .ok "" (.parsed "" none), none⟩,
     .ok ⟨200, ⟨"", "", ""⟩, .ok "b" (.parsed "" none), none⟩]
    (List.cons_ne_nil _ _)
  exact ⟨h.1, h.2.1, h.2.2.2.1⟩

end GoShopify
